import Mathlib

/-!
Verification of the Job Status Analyzer (utils.py and app.py).

The development shallowly embeds the CSV ingestion pipeline:

* date extraction from filenames (utils.py lines 16-19),
* per-file record construction with its failure handling (utils.py lines 13-49),
* the batch loop (app.py lines 62-65),
* date coercion, filtering, per-vessel grouping and sums (app.py lines 71-169),
* the cell grid, zebra striping and column widths of the exported
  spreadsheet (utils.py lines 143-226).

CSV parsing itself is delegated to pandas in the source; a parsed file is
modelled as either a parse error or a rectangular table of string cells.
Character classes are modelled at ASCII granularity (the inputs exercised
by the claims are ASCII).
-/

set_option maxHeartbeats 1000000
set_option maxRecDepth 10000

/-- Word character in the sense of the regex word boundary: ASCII letters,
digits, and the underscore. -/
def isWordChar (c : Char) : Bool := c.isAlphanum || c == '_'

/-- The pattern from utils.py line 18 -- word boundary, two digits, two
digits, four digits, word boundary -- matches the filename s at position i:
positions i..i+7 hold digits, the character before position i (when there is
one) is not a word character, and the character at position i+8 (when there
is one) is not a word character. -/
def wordRunAt (s : List Char) (i : Nat) : Bool :=
  decide (i + 8 ≤ s.length) &&
  ((s.drop i).take 8).all (fun c => c.isDigit) &&
  (i == 0 || !isWordChar (s.getD (i - 1) ' ')) &&
  (i + 8 == s.length || !isWordChar (s.getD (i + 8) ' '))

/-- One fuelled step of the regex scan: try the pattern at position i, then
at i+1, and so on, while fuel lasts and i is inside the subject. -/
def searchAux (s : List Char) : Nat → Nat → Option Nat
  | 0, _ => none
  | fuel + 1, i =>
    if i < s.length then
      if wordRunAt s i then some i else searchAux s fuel (i + 1)
    else none

/-- re.search tries the pattern at each position of the subject from left to
right and stops at the first position where it matches. The fuel covers
every position of the subject. -/
def searchFrom (s : List Char) (i : Nat) : Option Nat :=
  searchAux s (s.length - i) i

/-- The formatted date built from the three capture groups (utils.py
line 19): group1-group2-group3. -/
def formatDate (ds : List Char) : String :=
  String.mk (ds.take 2) ++ "-" ++ String.mk ((ds.drop 2).take 2) ++ "-" ++
    String.mk (ds.drop 4)

/-- utils.py lines 17-19: the value of formatted_date for a given filename,
"Unknown" when the regex finds no match. -/
def formattedDateOf (filename : String) : String :=
  match searchFrom filename.data 0 with
  | some i => formatDate ((filename.data.drop i).take 8)
  | none => "Unknown"

/-- The boundary test described by the claim wording for C1: eight digits
with a non-digit character (or the edge of the string) on each side. Stated
from the claim for comparison with wordRunAt, which is what the regex in the
code tests. -/
def digitBoundedRunAt (s : List Char) (i : Nat) : Bool :=
  decide (i + 8 ≤ s.length) &&
  ((s.drop i).take 8).all (fun c => c.isDigit) &&
  (i == 0 || !(s.getD (i - 1) ' ').isDigit) &&
  (i + 8 == s.length || !(s.getD (i + 8) ' ').isDigit)

/-- Python substring membership: needle occurs contiguously in hay. -/
def containsSub (hay needle : String) : Bool :=
  (List.range (hay.data.length + 1)).any (fun i => needle.data.isPrefixOf (hay.data.drop i))

/-- ASCII lowercasing, as the Python lower method on the ASCII inputs in
scope. -/
def lowerStr (s : String) : String := String.mk (s.data.map Char.toLower)

/-- Whitespace stripped by the Python strip method (ASCII range). -/
def isStripWs (c : Char) : Bool :=
  c == ' ' || c == '\t' || c == '\n' || c == '\r' || c == '\x0b' || c == '\x0c'

/-- The Python strip method: surrounding whitespace removed from both
ends. -/
def pyStrip (s : String) : String :=
  String.mk (((s.data.dropWhile isStripWs).reverse.dropWhile isStripWs).reverse)

/-- Lexicographic code-point order on character lists, the order Python
string comparison uses. -/
def lexLeChars : List Char → List Char → Bool
  | [], _ => true
  | _ :: _, [] => false
  | a :: as, b :: bs => if a = b then lexLeChars as bs else decide (a < b)

/-- Lexicographic code-point order on strings. -/
def strLe (a b : String) : Bool := lexLeChars a.data b.data

/-- strLe as a relation, for the sorting lemmas. -/
def strLeRel (a b : String) : Prop := strLe a b = true

instance : DecidableRel strLeRel := fun a b => Bool.decEq (strLe a b) true

instance : IsTotal String strLeRel := ⟨by
  intro a b
  unfold strLeRel strLe
  generalize a.data = x
  generalize b.data = y
  induction x generalizing y with
  | nil => left; rfl
  | cons c cs ih =>
    cases y with
    | nil => right; rfl
    | cons d ds =>
      simp only [lexLeChars]
      by_cases h : c = d
      · subst h
        simpa using ih ds
      · have h2 : ¬d = c := fun e => h e.symm
        rcases lt_or_gt_of_ne h with hlt | hgt
        · left; simp [h, hlt]
        · right; simp [h2, hgt]⟩

instance : IsTrans String strLeRel := ⟨by
  intro a b c hab hbc
  unfold strLeRel strLe at hab hbc ⊢
  revert hab hbc
  generalize a.data = x
  generalize b.data = y
  generalize c.data = z
  intro hab hbc
  induction x generalizing y z with
  | nil => rfl
  | cons cx xs ih =>
    cases y with
    | nil => simp [lexLeChars] at hab
    | cons cy ys =>
      cases z with
      | nil => simp [lexLeChars] at hbc
      | cons cz zs =>
        simp only [lexLeChars] at hab hbc ⊢
        by_cases h1 : cx = cy <;> by_cases h2 : cy = cz
        · subst h1; subst h2
          simp only [if_pos rfl] at hab hbc ⊢
          exact ih ys zs hab hbc
        · subst h1
          simp only [if_pos rfl, if_neg h2] at hab hbc ⊢
          exact hbc
        · subst h2
          simp only [if_pos rfl, if_neg h1] at hab hbc ⊢
          exact hab
        · simp only [if_neg h1, if_neg h2, decide_eq_true_eq] at hab hbc
          have hlt : cx < cz := lt_trans hab hbc
          simp [ne_of_lt hlt, hlt]⟩

/-- A cell value of the summary record: an integer count or a string
(sentinels and names). Mirrors the mixed value types of the Python dict. -/
inductive Val where
  | nat : Nat → Val
  | str : String → Val
deriving DecidableEq

/-- A parsed CSV table as pandas read_csv returns it: header names and data
rows of string cells. -/
structure Df where
  columns : List String
  rows : List (List String)
deriving DecidableEq

instance : DecidableEq (Except String Df) := fun a b =>
  match a, b with
  | .error x, .error y =>
    if h : x = y then isTrue (by rw [h]) else isFalse (fun hc => h (by injection hc))
  | .ok x, .ok y =>
    if h : x = y then isTrue (by rw [h]) else isFalse (fun hc => h (by injection hc))
  | .error _, .ok _ => isFalse (fun hc => Except.noConfusion hc)
  | .ok _, .error _ => isFalse (fun hc => Except.noConfusion hc)

/-- An uploaded file: its filename and the outcome of pandas read_csv on its
bytes (a parse or I/O error, or a table). -/
structure CsvFile where
  name : String
  content : Except String Df
deriving DecidableEq

/-- utils.py line 23: index of the first column whose lowercased name
contains "vessel". -/
def vesselIdx (df : Df) : Option Nat :=
  df.columns.findIdx? (fun c => containsSub (lowerStr c) "vessel")

/-- utils.py line 26: index of the first column whose lowercased name
contains "status". -/
def statusIdx (df : Df) : Option Nat :=
  df.columns.findIdx? (fun c => containsSub (lowerStr c) "status")

/-- utils.py lines 30-34: number of rows whose status value, stripped of
surrounding whitespace, equals "New"; 0 when there is no status column. -/
def newJobCountOf (df : Df) : Nat :=
  match statusIdx df with
  | some i => df.rows.countP (fun row => pyStrip (row.getD i "") == "New")
  | none => 0

/-- One summary record per input file (the dict built in utils.py
lines 35-41 and 43-49). -/
structure JobRecord where
  fileName : String
  vesselName : String
  totalJobs : Val
  newJobs : Val
  dateExtracted : String
deriving DecidableEq

/-- The record returned by the except branch (utils.py lines 43-49) once
filename and formatted_date have been computed. -/
def errorRecord (filename date : String) : JobRecord :=
  { fileName := filename, vesselName := "Error", totalJobs := .str "Error",
    newJobs := .str "Error", dateExtracted := date }

/-- utils.py lines 13-49. The two failure points of the try block are the
CSV read (modelled by CsvFile.content) and the access to the first row of
the vessel column, which raises when the table has no data rows; both land
in the except branch. Filename and formatted date are computed before either
failure point. -/
def process_csv_file (file : CsvFile) : JobRecord :=
  let filename := file.name
  let formatted_date := formattedDateOf filename
  match file.content with
  | .error _ => errorRecord filename formatted_date
  | .ok df =>
    match vesselIdx df with
    | some i =>
      match df.rows with
      | [] => errorRecord filename formatted_date
      | r0 :: _ =>
        { fileName := filename, vesselName := r0.getD i "",
          totalJobs := .nat df.rows.length, newJobs := .nat (newJobCountOf df),
          dateExtracted := formatted_date }
    | none =>
      { fileName := filename, vesselName := "Vessel column not found",
        totalJobs := .nat df.rows.length, newJobs := .nat (newJobCountOf df),
        dateExtracted := formatted_date }

/-- The condition under which the try block of process_csv_file raises: the
CSV read fails, or a vessel column exists but the table has no data rows. -/
def processFails (file : CsvFile) : Bool :=
  match file.content with
  | .error _ => true
  | .ok df => (vesselIdx df).isSome && df.rows.isEmpty

/-- app.py lines 61-65: the batch loop appends one record per uploaded
file, in order. -/
def summary_data (files : List CsvFile) : List JobRecord :=
  files.map process_csv_file

/-- The key-value pairs of the dict returned by process_csv_file, in the
order the dict literal writes them (utils.py lines 35-41; the except branch
uses the same keys in the same order). -/
def recordItems (r : JobRecord) : List (String × Val) :=
  [("File Name", .str r.fileName), ("Vessel Name", .str r.vesselName),
   ("Total Count of Jobs", r.totalJobs), ("New Job Count", r.newJobs),
   ("Date Extracted from File Name", .str r.dateExtracted)]

/-- pd.DataFrame over a list of dicts takes its column order from the keys
of the first dict (app.py line 68). -/
def dfColumnsOf (records : List JobRecord) : List String :=
  match records with
  | [] => []
  | r :: _ => (recordItems r).map Prod.fst

/-- The five column labels in the order the record dict declares them. -/
def displayColumns : List String :=
  ["File Name", "Vessel Name", "Total Count of Jobs", "New Job Count",
   "Date Extracted from File Name"]

/-- A calendar day, used for the coerced date column. -/
structure Date where
  y : Nat
  m : Nat
  d : Nat
deriving DecidableEq

/-- Day-granularity order on dates. -/
def dateLe (a b : Date) : Bool :=
  decide (a.y < b.y ∨ (a.y = b.y ∧ (a.m < b.m ∨ (a.m = b.m ∧ a.d ≤ b.d))))

/-- Gregorian leap year. -/
def isLeapYear (y : Nat) : Bool := (y % 4 == 0 && y % 100 != 0) || y % 400 == 0

/-- Days in a month of the Gregorian calendar. -/
def daysInMonth (y m : Nat) : Nat :=
  if m == 2 then (if isLeapYear y then 29 else 28)
  else if m == 4 || m == 6 || m == 9 || m == 11 then 30
  else 31

/-- Calendar validity of a day-month-year triple. -/
def validDate (y m d : Nat) : Bool :=
  decide (1 ≤ m) && decide (m ≤ 12) && decide (1 ≤ d) && decide (d ≤ daysInMonth y m)

/-- First midnight representable by a pandas Timestamp. -/
def pandasMinDate : Date := { y := 1677, m := 9, d := 22 }

/-- Last midnight representable by a pandas Timestamp. -/
def pandasMaxDate : Date := { y := 2262, m := 4, d := 11 }

/-- Numeric value of a digit string. -/
def digitsVal (l : List Char) : Nat :=
  l.foldl (fun a c => a * 10 + (c.toNat - 48)) 0

/-- Splitting a character list at dashes, as the date format separates its
fields. -/
def splitDash : List Char → List (List Char)
  | [] => [[]]
  | c :: rest =>
    if c = '-' then [] :: splitDash rest
    else
      match splitDash rest with
      | [] => [[c]]
      | p :: ps => (c :: p) :: ps

/-- Model of pandas to_datetime with format day-month-year and
errors="coerce" (app.py lines 71-75), on the strings the extractor produces
(two digits, dash, two digits, dash, four digits, or "Unknown"): an invalid
calendar date, an out-of-bounds timestamp, or any other string coerces to
null rather than raising. -/
def parseDate (s : String) : Option Date :=
  match splitDash s.data with
  | [ds, ms, ys] =>
    if ds.length == 2 && ms.length == 2 && ys.length == 4 &&
       ds.all Char.isDigit && ms.all Char.isDigit && ys.all Char.isDigit then
      let d := digitsVal ds
      let m := digitsVal ms
      let y := digitsVal ys
      if validDate y m d && dateLe pandasMinDate ⟨y, m, d⟩ && dateLe ⟨y, m, d⟩ pandasMaxDate
      then some ⟨y, m, d⟩
      else none
    else none
  | _ => none

/-- One row of the in-memory table after the date coercion of app.py
lines 71-75. -/
structure Row where
  fileName : String
  vesselName : String
  totalJobs : Val
  newJobs : Val
  date : Option Date
deriving DecidableEq

/-- Coercion of a record into a table row: the date string becomes a real
date or null. -/
def toRow (r : JobRecord) : Row :=
  { fileName := r.fileName, vesselName := r.vesselName, totalJobs := r.totalJobs,
    newJobs := r.newJobs, date := parseDate r.dateExtracted }

/-- The full table df of app.py line 68 after coercion. -/
def buildRows (files : List CsvFile) : List Row :=
  (summary_data files).map toRow

/-- Vessel membership test of app.py line 101. -/
def vesselPass (vf : List String) (r : Row) : Bool := vf.contains r.vesselName

/-- Inclusive date range test of app.py lines 104-107; a null date compares
false on both sides. -/
def datePass (s e : Date) (r : Row) : Bool :=
  match r.date with
  | some dt => dateLe s dt && dateLe dt e
  | none => false

/-- app.py lines 99-107: the vessel filter applies only when the selection
is non-empty, the date filter only when the range has exactly two
endpoints. -/
def applyFilters (rows : List Row) (vf : List String) (dr : List Date) : List Row :=
  let r1 := if vf.isEmpty then rows else rows.filter (vesselPass vf)
  match dr with
  | [s, e] => r1.filter (datePass s e)
  | _ => r1

/-- Zero-padded two-digit rendering used by strftime. -/
def pad2 (n : Nat) : String := if n < 10 then "0" ++ toString n else toString n

/-- Zero-padded four-digit rendering used by strftime. -/
def pad4 (n : Nat) : String :=
  if n < 10 then "000" ++ toString n
  else if n < 100 then "00" ++ toString n
  else if n < 1000 then "0" ++ toString n
  else toString n

/-- app.py line 150: strftime day-month-year on the coerced column; a null
date renders as the missing value (a NaN cell, modelled by "NaN"). -/
def strftimeDMY : Option Date → String
  | some dt => pad2 dt.d ++ "-" ++ pad2 dt.m ++ "-" ++ pad4 dt.y
  | none => "NaN"

/-- A row of filtered_df_display: the date column replaced by its display
string (app.py lines 149-150). -/
structure DisplayRow where
  fileName : String
  vesselName : String
  totalJobs : Val
  newJobs : Val
  dateStr : String
deriving DecidableEq

/-- Formatting of one coerced row for display. -/
def toDisplay (r : Row) : DisplayRow :=
  { fileName := r.fileName, vesselName := r.vesselName, totalJobs := r.totalJobs,
    newJobs := r.newJobs, dateStr := strftimeDMY r.date }

/-- filtered_df_display for a given upload batch and filter selection. -/
def displayTable (files : List CsvFile) (vf : List String) (dr : List Date) :
    List DisplayRow :=
  (applyFilters (buildRows files) vf dr).map toDisplay

/-- First pass of pandas unique with a seen accumulator: keep each value at
its first occurrence. -/
def uniqueAux (seen : List String) : List String → List String
  | [] => []
  | x :: xs =>
    if x ∈ seen then uniqueAux seen xs
    else x :: uniqueAux (x :: seen) xs

/-- First-occurrence deduplication, as pandas unique returns values. -/
def uniqueFirst (l : List String) : List String := uniqueAux [] l

/-- The comparison pandas sort_values with ascending false uses on the
display date column: plain string order, reversed. -/
def dateDesc (a b : DisplayRow) : Prop := strLeRel b.dateStr a.dateStr

instance : DecidableRel dateDesc :=
  fun a b => Bool.decEq (strLe b.dateStr a.dateStr) true

instance : IsTotal DisplayRow dateDesc :=
  ⟨fun a b => total_of strLeRel b.dateStr a.dateStr⟩

instance : IsTrans DisplayRow dateDesc :=
  ⟨fun _ _ _ hab hbc => trans_of strLeRel hbc hab⟩

/-- app.py lines 153-169: one group per vessel name, vessel names sorted
ascending, each group holding the display rows of that vessel sorted by the
display date string, descending. -/
def perVesselGroups (rows : List DisplayRow) : List (String × List DisplayRow) :=
  (List.insertionSort strLeRel (uniqueFirst (rows.map DisplayRow.vesselName))).map
    (fun v => (v, List.insertionSort dateDesc (rows.filter (fun r => r.vesselName == v))))

/-- Chronological key of a display date string; 0 for strings that denote no
valid date. -/
def chronoVal (s : String) : Nat :=
  match parseDate s with
  | some dt => dt.y * 10000 + dt.m * 100 + dt.d
  | none => 0

/-- Numeric reading of a count cell; the sums in the app are only taken over
tables whose count cells are numeric. -/
def natOf : Val → Nat
  | .nat n => n
  | .str _ => 0

/-- Sum of the Total Count of Jobs column (app.py line 159, utils.py
line 125). -/
def sumTotalJobs (rows : List Row) : Nat := (rows.map (fun r => natOf r.totalJobs)).sum

/-- Sum of the New Job Count column (app.py line 160, utils.py line 126). -/
def sumNewJobs (rows : List Row) : Nat := (rows.map (fun r => natOf r.newJobs)).sum

/-- app.py line 153: the sorted unique vessel names of the filtered table. -/
def rowVessels (rows : List Row) : List String :=
  List.insertionSort strLeRel (uniqueFirst (rows.map Row.vesselName))

/-- String rendering of a cell value, as str applied to the value a
spreadsheet cell holds. -/
def Val.render : Val → String
  | .nat n => toString n
  | .str s => s

/-- The cells of one data row of the exported sheet, in the column order of
the display table. -/
def displayCells (r : DisplayRow) : List String :=
  [r.fileName, r.vesselName, r.totalJobs.render, r.newJobs.render, r.dateStr]

/-- The cell grid df.to_excel writes with index false (utils.py line 148):
the header row followed by the data rows. -/
def reportCells (columns : List String) (rows : List (List String)) : List (List String) :=
  columns :: rows

/-- The cell grid of the report the export button generates (app.py
lines 180-181 feeding utils.py line 148). -/
def pipelineSheet (files : List CsvFile) (vf : List String) (dr : List Date) :
    List (List String) :=
  reportCells (dfColumnsOf (summary_data files)) ((displayTable files vf dr).map displayCells)

/-- The formatting state of a spreadsheet cell, restricted to the
attributes the claims mention. -/
structure CellFmt where
  fill : Option String
  bold : Bool
  centered : Bool
  bordered : Bool
deriving DecidableEq

/-- Fill color of the header row (utils.py line 156). -/
def headerHex : String := "1F4E78"

/-- Fill color of the zebra stripes (utils.py line 190). -/
def grayHex : String := "F0F0F0"

/-- A freshly written cell: no fill, default font, default alignment, no
border. -/
def initFmt : CellFmt := { fill := none, bold := false, centered := false, bordered := false }

/-- Formatting state after the header loop (utils.py lines 169-173); all
cells of a sheet row receive the same treatment, so the state depends on
the row index only. Row 1 is the header. -/
def afterHeaderFmt (r : Nat) : CellFmt :=
  if r = 1 then { fill := some headerHex, bold := true, centered := true, bordered := true }
  else initFmt

/-- Formatting state after the data-cell loop (utils.py lines 176-179),
which sets alignment and border on rows 2 through maxRow. -/
def afterDataFmt (maxRow r : Nat) : CellFmt :=
  if 2 ≤ r ∧ r ≤ maxRow then { afterHeaderFmt r with centered := true, bordered := true }
  else afterHeaderFmt r

/-- Formatting state after the zebra loop (utils.py lines 189-193), which
runs over rows 2, 4, ... up to maxRow and overwrites only the fill. -/
def finalCellFmt (maxRow r : Nat) : CellFmt :=
  if 2 ≤ r ∧ r ≤ maxRow ∧ r % 2 = 0 then { afterDataFmt maxRow r with fill := some grayHex }
  else afterDataFmt maxRow r

/-- The width loop body of utils.py lines 210-217: running maximum of the
cell text lengths, starting from 0, taking a new value only when strictly
longer. -/
def maxLenFold (cells : List String) (a : Nat) : Nat :=
  cells.foldl (fun acc s => if s.length > acc then s.length else acc) a

/-- utils.py line 218: the width assigned to a column is the maximum cell
text length plus 2. -/
def colWidthOf (cells : List String) : Nat := maxLenFold cells 0 + 2

/-- The cells of column c of the written sheet, top to bottom: the header
cell then one cell per data row. -/
def columnCells (header : List String) (rows : List (List String)) (c : Nat) : List String :=
  header.getD c "" :: rows.map (fun row => row.getD c "")

/-- The widths utils.py lines 208-219 assign, one per sheet column. -/
def sheetWidths (header : List String) (rows : List (List String)) : List Nat :=
  (List.range header.length).map (fun c => colWidthOf (columnCells header rows c))

/-- A file whose CSV read fails, exercising the failure branch. -/
def fileErr : CsvFile := { name := "Alpha-01022024.csv", content := .error "bad CSV" }

/-- A one-row CSV for vessel Alpha dated 5 January 2023. -/
def fileA : CsvFile :=
  { name := "Alpha-05012023.csv",
    content := .ok { columns := ["Vessel Name", "Job Status"], rows := [["Alpha", "New"]] } }

/-- A two-row CSV table with one job whose status needs trimming. -/
def dfB : Df :=
  { columns := ["Vessel Name", "Job Status"],
    rows := [["Alpha", "Done"], ["Alpha", " New "]] }

/-- A two-row CSV for vessel Alpha dated 1 February 2024. -/
def fileB : CsvFile := { name := "Alpha-01022024.csv", content := .ok dfB }

/-- A CSV table with a vessel column but no data rows. -/
def dfEmpty : Df := { columns := ["Vessel Name", "Job Status"], rows := [] }

/-- A file whose table has a vessel column but no data rows. -/
def fileEmpty : CsvFile := { name := "Empty-01022024.csv", content := .ok dfEmpty }

/-- A coerced row with a valid January 2023 date. -/
def wRow : Row :=
  { fileName := "Alpha-05012023.csv", vesselName := "Alpha", totalJobs := .nat 1,
    newJobs := .nat 1, date := some { y := 2023, m := 1, d := 5 } }

/-! Helper lemmas for the regex scan. -/

theorem wordRunAt_le_length {s : List Char} {i : Nat} (h : wordRunAt s i = true) :
    i + 8 ≤ s.length := by
  unfold wordRunAt at h
  simp only [Bool.and_eq_true, decide_eq_true_eq] at h
  exact h.1.1.1

theorem wordRunAt_false_of_len {s : List Char} {i : Nat} (h : ¬i + 8 ≤ s.length) :
    wordRunAt s i = false := by
  unfold wordRunAt
  rw [decide_eq_false h]
  simp

theorem searchAux_eq_none (s : List Char) :
    ∀ fuel i, (∀ j, i ≤ j → wordRunAt s j = false) → searchAux s fuel i = none := by
  intro fuel
  induction fuel with
  | zero => intro i _; rfl
  | succ n ih =>
    intro i h
    unfold searchAux
    by_cases hi : i < s.length
    · rw [if_pos hi, h i (Nat.le_refl i)]
      simp only [Bool.false_eq_true, if_false]
      exact ih (i + 1) (fun j hj => h j (by omega))
    · rw [if_neg hi]

theorem searchAux_eq_some (s : List Char) (k : Nat) (hk : wordRunAt s k = true) :
    ∀ fuel i, i ≤ k → k < i + fuel →
      (∀ j, i ≤ j → j < k → wordRunAt s j = false) → searchAux s fuel i = some k := by
  have hklen := wordRunAt_le_length hk
  intro fuel
  induction fuel with
  | zero => intro i h1 h2 _; exact absurd h2 (by omega)
  | succ n ih =>
    intro i h1 h2 hmin
    unfold searchAux
    rw [if_pos (show i < s.length by omega)]
    by_cases hik : i = k
    · subst hik
      rw [hk]
      simp
    · have hlt : i < k := by omega
      rw [hmin i (Nat.le_refl i) hlt]
      simp only [Bool.false_eq_true, if_false]
      exact ih (i + 1) (by omega) (by omega) (fun j hj1 hj2 => hmin j (by omega) hj2)

theorem searchFrom_eq_none (s : List Char) (h : ∀ j, wordRunAt s j = false) :
    searchFrom s 0 = none :=
  searchAux_eq_none s _ 0 (fun j _ => h j)

theorem searchFrom_eq_some (s : List Char) (k : Nat) (hk : wordRunAt s k = true)
    (hmin : ∀ j, j < k → wordRunAt s j = false) : searchFrom s 0 = some k := by
  have hklen := wordRunAt_le_length hk
  exact searchAux_eq_some s k hk (s.length - 0) 0 (by omega) (by omega)
    (fun j _ hj => hmin j hj)

/-- C1 (amended). The extractor formats as day-month-year the first
eight-digit run of the filename that is delimited by word boundaries, that
is, preceded and followed by a non-word character or a string edge -- word
characters being letters, digits and the underscore -- and yields "Unknown"
when no such run exists; no calendar validation is performed on the two-digit
groups, and every record carries this value. The claim states the weaker
delimiter "non-digit character or string edge", which C1_counterexample
refutes: a letter or underscore next to the digits also blocks the match. -/
theorem C1_date_extraction (filename : String) :
    ((∀ i, wordRunAt filename.data i = false) → formattedDateOf filename = "Unknown") ∧
    (∀ i, wordRunAt filename.data i = true →
        (∀ j, j < i → wordRunAt filename.data j = false) →
        formattedDateOf filename = formatDate ((filename.data.drop i).take 8)) ∧
    (∀ file : CsvFile, (process_csv_file file).dateExtracted = formattedDateOf file.name) := by
  refine ⟨?_, ?_, ?_⟩
  · intro h
    unfold formattedDateOf
    rw [searchFrom_eq_none filename.data h]
  · intro i hi hmin
    unfold formattedDateOf
    rw [searchFrom_eq_some filename.data i hi hmin]
  · intro file
    cases file with
    | mk name content =>
      cases content with
      | error e => rfl
      | ok df =>
        cases hv : vesselIdx df with
        | none => simp [process_csv_file, hv]
        | some i =>
          cases hr : df.rows with
          | nil => simp [process_csv_file, hv, hr, errorRecord]
          | cons r0 rest => simp [process_csv_file, hv, hr]

/-- Witness for C1: a dash-delimited run is extracted and formatted without
calendar validation, and a filename without a boundary-delimited run yields
"Unknown". -/
theorem C1_date_extraction_witness :
    formattedDateOf "a-99999999.csv" = formatDate (("a-99999999.csv".data.drop 2).take 8) ∧
    formatDate (("a-99999999.csv".data.drop 2).take 8) = "99-99-9999" ∧
    formattedDateOf "nodate.csv" = "Unknown" := by
  refine ⟨?_, by decide, ?_⟩
  · exact (C1_date_extraction "a-99999999.csv").2.1 2 (by decide) (by decide)
  · refine (C1_date_extraction "nodate.csv").1 ?_
    intro i
    rcases Nat.lt_or_ge i 3 with hi | hi
    · interval_cases i <;> decide
    · refine wordRunAt_false_of_len ?_
      have hlen : ("nodate.csv".data.length) = 10 := by decide
      omega

/-- C1 is false as stated: in the filename "a12345678" the eight digits are
bounded by a non-digit character on the left and the string edge on the
right, yet the code extracts "Unknown", because the regex word boundary does
not fall between two word characters such as a letter and a digit. -/
theorem C1_counterexample :
    digitBoundedRunAt "a12345678".data 1 = true ∧
    (∀ j, j < 1 → digitBoundedRunAt "a12345678".data j = false) ∧
    formattedDateOf "a12345678" = "Unknown" ∧
    formatDate (("a12345678".data.drop 1).take 8) ≠ "Unknown" :=
  ⟨by decide, by decide, by decide, by decide⟩

/-- C2. No exception escapes process_csv_file: whenever the try block fails
(the CSV read errors, or the first-row access raises because a vessel column
exists over an empty table), the returned record carries the sentinel
string "Error" in its Vessel Name, Total Count of Jobs and New Job Count
fields, while the filename and the extracted date, both computed before
either failure point, are preserved; the batch loop therefore still yields
one record per uploaded file. -/
theorem C2_error_isolation :
    (∀ file : CsvFile, processFails file = true →
        (process_csv_file file).vesselName = "Error" ∧
        (process_csv_file file).totalJobs = Val.str "Error" ∧
        (process_csv_file file).newJobs = Val.str "Error" ∧
        (process_csv_file file).fileName = file.name ∧
        (process_csv_file file).dateExtracted = formattedDateOf file.name) ∧
    (∀ files : List CsvFile, (summary_data files).length = files.length) := by
  constructor
  · intro file hf
    cases file with
    | mk name content =>
      cases content with
      | error e => exact ⟨rfl, rfl, rfl, rfl, rfl⟩
      | ok df =>
        unfold processFails at hf
        simp only [Bool.and_eq_true, Option.isSome_iff_exists, List.isEmpty_iff] at hf
        obtain ⟨⟨i, hv⟩, hr⟩ := hf
        simp [process_csv_file, hv, hr, errorRecord]
  · intro files
    simp [summary_data]

/-- Witness for C2 at a file whose CSV read fails: all three sentinel
fields, preserved filename and date, and a two-file batch yielding two
records. -/
theorem C2_error_isolation_witness :
    (process_csv_file fileErr).vesselName = "Error" ∧
    (process_csv_file fileErr).totalJobs = Val.str "Error" ∧
    (process_csv_file fileErr).newJobs = Val.str "Error" ∧
    (process_csv_file fileErr).fileName = fileErr.name ∧
    (process_csv_file fileErr).dateExtracted = formattedDateOf fileErr.name ∧
    (summary_data [fileErr, fileA]).length = 2 := by
  have h1 := C2_error_isolation.1 fileErr (by decide)
  exact ⟨h1.1, h1.2.1, h1.2.2.1, h1.2.2.2.1, h1.2.2.2.2, C2_error_isolation.2 [fileErr, fileA]⟩

/-- C5. On a successfully processed CSV, the Total Count of Jobs is the
number of data rows and, when a status column was sniffed, the New Job Count
is the number of rows whose status value equals "New" exactly (case
sensitive) after stripping surrounding whitespace; when no column name
contains "status", the New Job Count is 0. -/
theorem C5_status_counts (file : CsvFile) (df : Df)
    (hok : file.content = Except.ok df) (hsucc : processFails file = false) :
    (process_csv_file file).totalJobs = Val.nat df.rows.length ∧
    (∀ i, statusIdx df = some i →
        (process_csv_file file).newJobs =
          Val.nat ((df.rows.filter (fun row => pyStrip (row.getD i "") == "New")).length)) ∧
    (statusIdx df = none → (process_csv_file file).newJobs = Val.nat 0) := by
  cases file with
  | mk name content =>
    cases hok
    rcases hv : vesselIdx df with _ | vi
    · refine ⟨by simp [process_csv_file, hv], ?_, ?_⟩
      · intro i hi
        simp [process_csv_file, hv, newJobCountOf, hi, List.countP_eq_length_filter]
      · intro hi
        simp [process_csv_file, hv, newJobCountOf, hi]
    · rcases hr : df.rows with _ | ⟨r0, rest⟩
      · exfalso
        unfold processFails at hsucc
        simp [hv, hr] at hsucc
      · refine ⟨by simp [process_csv_file, hv, hr], ?_, ?_⟩
        · intro i hi
          simp [process_csv_file, hv, hr, newJobCountOf, hi, List.countP_eq_length_filter]
        · intro hi
          simp [process_csv_file, hv, hr, newJobCountOf, hi]

/-- Witness for C5 at a two-row table whose status column holds "Done" and
" New ": total 2, and exactly one row counts as new after trimming. -/
theorem C5_status_counts_witness :
    (process_csv_file fileB).totalJobs = Val.nat 2 ∧
    (process_csv_file fileB).newJobs = Val.nat 1 := by
  have h := C5_status_counts fileB dfB rfl (by decide)
  refine ⟨h.1, ?_⟩
  have h2 := h.2.1 1 (by decide)
  rw [h2]
  decide

/-- C10. For every file processed without an exception the two counts are
numerals with the New Job Count at most the Total Count of Jobs, since the
new jobs are counted among the table rows; and a table that has a
vessel-named column but no data rows is not reported with total 0: the
first-row access raises, so the record carries the sentinel "Error" in the
vessel name and both counts. -/
theorem C10_count_invariant :
    (∀ (file : CsvFile) (df : Df), file.content = Except.ok df →
        processFails file = false →
        ∃ a b, (process_csv_file file).newJobs = Val.nat a ∧
          (process_csv_file file).totalJobs = Val.nat b ∧ a ≤ b) ∧
    (∀ (file : CsvFile) (df : Df), file.content = Except.ok df →
        (vesselIdx df).isSome → df.rows = [] →
        (process_csv_file file).vesselName = "Error" ∧
        (process_csv_file file).totalJobs = Val.str "Error" ∧
        (process_csv_file file).newJobs = Val.str "Error") := by
  constructor
  · intro file df hok hsucc
    refine ⟨newJobCountOf df, df.rows.length, ?_⟩
    have hcount : newJobCountOf df ≤ df.rows.length := by
      unfold newJobCountOf
      rcases statusIdx df with _ | i
      · exact Nat.zero_le _
      · exact List.countP_le_length _
    cases file with
    | mk name content =>
      cases hok
      rcases hv : vesselIdx df with _ | vi
      · exact ⟨by simp [process_csv_file, hv], by simp [process_csv_file, hv], hcount⟩
      · rcases hr : df.rows with _ | ⟨r0, rest⟩
        · exfalso
          unfold processFails at hsucc
          simp [hv, hr] at hsucc
        · exact ⟨by simp [process_csv_file, hv, hr], by simp [process_csv_file, hv, hr],
            hr ▸ hcount⟩
  · intro file df hok hv hr
    cases file with
    | mk name content =>
      cases hok
      obtain ⟨vi, hvi⟩ := Option.isSome_iff_exists.mp hv
      simp [process_csv_file, hvi, hr, errorRecord]

/-- Witness for C10: the invariant at a successfully processed two-row file,
and the error record for a header-only table with a vessel column. -/
theorem C10_count_invariant_witness :
    (∃ a b, (process_csv_file fileB).newJobs = Val.nat a ∧
        (process_csv_file fileB).totalJobs = Val.nat b ∧ a ≤ b) ∧
    (process_csv_file fileEmpty).vesselName = "Error" :=
  ⟨C10_count_invariant.1 fileB dfB rfl (by decide),
   (C10_count_invariant.2 fileEmpty dfEmpty rfl (by decide) rfl).1⟩

/-! Helper lemmas for deduplication and partitioned sums. -/

theorem mem_uniqueAux (l : List String) :
    ∀ seen a, a ∈ uniqueAux seen l ↔ a ∈ l ∧ a ∉ seen := by
  induction l with
  | nil => intro seen a; simp [uniqueAux]
  | cons x xs ih =>
    intro seen a
    unfold uniqueAux
    by_cases hx : x ∈ seen
    · rw [if_pos hx, ih seen a]
      constructor
      · rintro ⟨ha, hna⟩
        exact ⟨List.mem_cons_of_mem _ ha, hna⟩
      · rintro ⟨ha, hna⟩
        rcases List.mem_cons.mp ha with rfl | ha2
        · exact absurd hx hna
        · exact ⟨ha2, hna⟩
    · rw [if_neg hx]
      simp only [List.mem_cons, ih (x :: seen) a]
      constructor
      · rintro (rfl | ⟨ha, hna⟩)
        · exact ⟨Or.inl rfl, hx⟩
        · exact ⟨Or.inr ha, fun hc => hna (Or.inr hc)⟩
      · rintro ⟨ha, hna⟩
        by_cases hax : a = x
        · exact Or.inl hax
        · refine Or.inr ⟨?_, ?_⟩
          · rcases ha with rfl | ha2
            · exact absurd rfl hax
            · exact ha2
          · intro hc
            rcases hc with rfl | hc2
            · exact hax rfl
            · exact hna hc2

theorem nodup_uniqueAux (l : List String) : ∀ seen, (uniqueAux seen l).Nodup := by
  induction l with
  | nil => intro seen; exact List.nodup_nil
  | cons x xs ih =>
    intro seen
    unfold uniqueAux
    by_cases hx : x ∈ seen
    · rw [if_pos hx]; exact ih seen
    · rw [if_neg hx]
      refine List.nodup_cons.mpr ⟨?_, ih (x :: seen)⟩
      intro hc
      exact ((mem_uniqueAux xs (x :: seen) x).mp hc).2 (List.mem_cons_self x seen)

theorem mem_uniqueFirst (l : List String) (a : String) : a ∈ uniqueFirst l ↔ a ∈ l := by
  unfold uniqueFirst
  rw [mem_uniqueAux]
  simp

theorem nodup_uniqueFirst (l : List String) : (uniqueFirst l).Nodup := nodup_uniqueAux l []

theorem sum_filter_split {α : Type} (f : α → Nat) (p : α → Bool) (l : List α) :
    ((l.filter p).map f).sum + ((l.filter (fun r => !p r)).map f).sum = (l.map f).sum := by
  induction l with
  | nil => rfl
  | cons x xs ih =>
    cases hp : p x
    · simp only [List.filter_cons, hp, Bool.not_false, if_pos, Bool.false_eq_true, if_false,
        List.map_cons, List.sum_cons, ite_true]
      omega
    · simp only [List.filter_cons, hp, Bool.not_true, Bool.false_eq_true, if_false,
        List.map_cons, List.sum_cons, ite_true]
      omega

theorem sum_partition {α : Type} (key : α → String) (f : α → Nat) :
    ∀ (keys : List String) (l : List α), keys.Nodup → (∀ r ∈ l, key r ∈ keys) →
      (keys.map (fun v => ((l.filter (fun r => key r == v)).map f).sum)).sum
        = (l.map f).sum := by
  intro keys
  induction keys with
  | nil =>
    intro l _ hcov
    cases l with
    | nil => rfl
    | cons r rs => exact absurd (hcov r (List.mem_cons_self r rs)) (List.not_mem_nil _)
  | cons k ks ih =>
    intro l hnd hcov
    have hnd2 := List.nodup_cons.mp hnd
    simp only [List.map_cons, List.sum_cons]
    have hsplit := sum_filter_split f (fun r => key r == k) l
    have hrest : ∀ v ∈ ks,
        l.filter (fun r => key r == v)
          = (l.filter (fun r => !(key r == k))).filter (fun r => key r == v) := by
      intro v hv
      have hvk : v ≠ k := fun e => hnd2.1 (e ▸ hv)
      rw [List.filter_filter]
      apply List.filter_congr
      intro r _
      by_cases hr : key r = v
      · simp [hr, hvk]
      · simp [hr]
    have hmap : (ks.map (fun v => ((l.filter (fun r => key r == v)).map f).sum)).sum
        = (ks.map (fun v =>
            (((l.filter (fun r => !(key r == k))).filter (fun r => key r == v)).map f).sum)).sum := by
      refine congrArg List.sum (List.map_congr_left ?_)
      intro v hv
      rw [hrest v hv]
    rw [hmap, ih (l.filter (fun r => !(key r == k))) hnd2.2 ?_]
    · exact hsplit
    · intro r hr
      have hm := List.mem_filter.mp hr
      have hk : key r ≠ k := by simpa using hm.2
      rcases List.mem_cons.mp (hcov r hm.1) with he | he
      · exact absurd he hk
      · exact he

/-- C7. The global totals over a non-empty filtered table equal the sums of
the per-vessel totals, for both the Total Count of Jobs and the New Job
Count columns, because the per-vessel groups keyed by the sorted unique
vessel names partition the rows of the table. -/
theorem C7_rollup_partition (rows : List Row) (hne : rows ≠ []) :
    ((rowVessels rows).map
        (fun v => sumTotalJobs (rows.filter (fun r => r.vesselName == v)))).sum
      = sumTotalJobs rows ∧
    ((rowVessels rows).map
        (fun v => sumNewJobs (rows.filter (fun r => r.vesselName == v)))).sum
      = sumNewJobs rows := by
  have hperm : List.Perm (rowVessels rows) (uniqueFirst (rows.map Row.vesselName)) :=
    List.perm_insertionSort _ _
  have hnd : (rowVessels rows).Nodup := hperm.nodup_iff.mpr (nodup_uniqueFirst _)
  have hcov : ∀ r ∈ rows, r.vesselName ∈ rowVessels rows := by
    intro r hr
    rw [hperm.mem_iff, mem_uniqueFirst]
    exact List.mem_map_of_mem _ hr
  constructor
  · simpa only [sumTotalJobs] using
      sum_partition Row.vesselName (fun r => natOf r.totalJobs) (rowVessels rows) rows hnd hcov
  · simpa only [sumNewJobs] using
      sum_partition Row.vesselName (fun r => natOf r.newJobs) (rowVessels rows) rows hnd hcov

/-- Witness for C7 on a one-row table. -/
theorem C7_rollup_partition_witness :
    ((rowVessels [wRow]).map
        (fun v => sumTotalJobs ([wRow].filter (fun r => r.vesselName == v)))).sum
      = sumTotalJobs [wRow] :=
  (C7_rollup_partition [wRow] (List.cons_ne_nil _ _)).1

/-- C6. Filtering is the conjunction of two independent tests: membership in
the filtered table means being in the source table, passing the vessel test
unless the vessel selection is empty, and passing the inclusive date test;
with an empty vessel selection the table is returned unfiltered by vessel;
every row whose coerced date is null fails the date test whenever a full
range is applied; and a range that excludes every row yields the empty
table. -/
theorem C6_filter_conjunction :
    (∀ (rows : List Row) (vf : List String) (s e : Date) (r : Row),
        r ∈ applyFilters rows vf [s, e] ↔
          r ∈ rows ∧ (vf.isEmpty = true ∨ vesselPass vf r = true) ∧ datePass s e r = true) ∧
    (∀ (rows : List Row) (s e : Date),
        applyFilters rows [] [s, e] = rows.filter (datePass s e)) ∧
    (∀ rows : List Row, applyFilters rows [] [] = rows) ∧
    (∀ (rows : List Row) (vf : List String) (s e : Date) (r : Row),
        r ∈ applyFilters rows vf [s, e] → r.date ≠ none) ∧
    (∀ (rows : List Row) (vf : List String) (s e : Date),
        (∀ r ∈ rows, datePass s e r = false) → applyFilters rows vf [s, e] = []) := by
  have hmem : ∀ (rows : List Row) (vf : List String) (s e : Date) (r : Row),
      r ∈ applyFilters rows vf [s, e] ↔
        r ∈ rows ∧ (vf.isEmpty = true ∨ vesselPass vf r = true) ∧ datePass s e r = true := by
    intro rows vf s e r
    cases he : vf.isEmpty with
    | true => simp [applyFilters, he, List.mem_filter]
    | false =>
      simp only [applyFilters, he, Bool.false_eq_true, if_false, List.mem_filter]
      tauto
  refine ⟨hmem, ?_, ?_, ?_, ?_⟩
  · intro rows s e
    rfl
  · intro rows
    rfl
  · intro rows vf s e r h hnone
    have h3 := ((hmem rows vf s e r).mp h).2.2
    unfold datePass at h3
    rw [hnone] at h3
    simp at h3
  · intro rows vf s e hall
    cases he : vf.isEmpty with
    | true =>
      have : applyFilters rows vf [s, e] = rows.filter (datePass s e) := by
        simp [applyFilters, he]
      rw [this, List.filter_eq_nil_iff]
      intro a ha
      simp [hall a ha]
    | false =>
      have : applyFilters rows vf [s, e]
          = (rows.filter (vesselPass vf)).filter (datePass s e) := by
        simp [applyFilters, he]
      rw [this, List.filter_eq_nil_iff]
      intro a ha
      simp [hall a (List.mem_filter.mp ha).1]

/-- Witness for C6: a one-row table passes through an enclosing range
untouched with no vessel selection, and is emptied by a range that excludes
its row. -/
theorem C6_filter_conjunction_witness :
    applyFilters [wRow] [] [{ y := 2023, m := 1, d := 1 }, { y := 2023, m := 12, d := 31 }]
      = [wRow].filter (datePass { y := 2023, m := 1, d := 1 } { y := 2023, m := 12, d := 31 }) ∧
    applyFilters [wRow] [] [{ y := 2024, m := 1, d := 1 }, { y := 2024, m := 12, d := 31 }]
      = [] :=
  ⟨C6_filter_conjunction.2.1 [wRow] _ _,
   C6_filter_conjunction.2.2.2.2 [wRow] [] _ _ (by decide)⟩

/-- C4 (amended). In the per-vessel display the vessel groups are ordered by
vessel name ascending in lexicographic code-point order, and within each
vessel the rows are sorted descending by the displayed day-month-year date
string -- a lexicographic string order that does not coincide with
chronological order, as C4_counterexample shows; each group holds exactly
the display rows of its vessel. -/
theorem C4_per_vessel_order (rows : List DisplayRow) :
    List.Sorted strLeRel ((perVesselGroups rows).map Prod.fst) ∧
    (∀ p ∈ perVesselGroups rows,
        List.Sorted dateDesc p.2 ∧
        List.Perm p.2 (rows.filter (fun r => r.vesselName == p.1))) := by
  constructor
  · have hid : ((perVesselGroups rows).map Prod.fst)
        = List.insertionSort strLeRel (uniqueFirst (rows.map DisplayRow.vesselName)) := by
      unfold perVesselGroups
      rw [List.map_map]
      exact List.map_id' _
    rw [hid]
    exact List.sorted_insertionSort strLeRel _
  · intro p hp
    unfold perVesselGroups at hp
    rcases List.mem_map.mp hp with ⟨v, _, rfl⟩
    exact ⟨List.sorted_insertionSort dateDesc _, List.perm_insertionSort dateDesc _⟩

/-- Witness for C4 at a concrete two-file upload: the single Alpha group is
sorted under the string-descending comparison and holds both rows. -/
theorem C4_per_vessel_order_witness :
    List.Sorted dateDesc
      (List.insertionSort dateDesc
        ((displayTable [fileA, fileB] [] []).filter (fun r => r.vesselName == "Alpha"))) ∧
    List.Perm
      (List.insertionSort dateDesc
        ((displayTable [fileA, fileB] [] []).filter (fun r => r.vesselName == "Alpha")))
      ((displayTable [fileA, fileB] [] []).filter (fun r => r.vesselName == "Alpha")) := by
  have h := (C4_per_vessel_order (displayTable [fileA, fileB] [] [])).2
    ("Alpha",
      List.insertionSort dateDesc
        ((displayTable [fileA, fileB] [] []).filter (fun r => r.vesselName == "Alpha")))
    (by decide)
  exact h

/-- C4 is false as stated: after uploading two files of the same vessel, the
per-vessel display lists the 5 January 2023 row before the 1 February 2024
row, because the rows are ordered by the display string, and "05-01-2023"
is lexicographically greater than "01-02-2024" while denoting an older
day. -/
theorem C4_counterexample :
    (perVesselGroups (displayTable [fileA, fileB] [] [])).map
        (fun p => (p.1, p.2.map DisplayRow.dateStr))
      = [("Alpha", ["05-01-2023", "01-02-2024"])] ∧
    chronoVal "05-01-2023" < chronoVal "01-02-2024" :=
  ⟨by decide, by decide⟩

/-- C3 (amended). The exported sheet has the columns in the fixed order
File Name, Vessel Name, Total Count of Jobs, New Job Count, Date Extracted
from File Name: the date column, carried as its display string, is the
fifth column, not the third, which is the total job count. -/
theorem C3_column_order (files : List CsvFile) (vf : List String) (dr : List Date)
    (hne : files ≠ []) :
    (pipelineSheet files vf dr).head? = some displayColumns ∧
    displayColumns.getD 4 "" = "Date Extracted from File Name" ∧
    displayColumns.getD 2 "" = "Total Count of Jobs" ∧
    (∀ r ∈ displayTable files vf dr,
        (displayCells r).getD 4 "" = r.dateStr ∧
        (displayCells r).getD 2 "" = r.totalJobs.render) := by
  refine ⟨?_, rfl, rfl, ?_⟩
  · cases files with
    | nil => exact absurd rfl hne
    | cons f fs => rfl
  · intro r _
    exact ⟨rfl, rfl⟩

/-- Witness for C3 at a one-file upload. -/
theorem C3_column_order_witness :
    (pipelineSheet [fileA] [] []).head? = some displayColumns ∧
    displayColumns.getD 4 "" = "Date Extracted from File Name" :=
  ⟨(C3_column_order [fileA] [] [] (List.cons_ne_nil _ _)).1,
   (C3_column_order [fileA] [] [] (List.cons_ne_nil _ _)).2.1⟩

/-- C3 is false as stated: in the exported sheet of a one-file upload the
third column is Total Count of Jobs, not the extracted date, which sits in
the fifth column. -/
theorem C3_counterexample :
    ((pipelineSheet [fileA] [] []).headD []).getD 2 "" = "Total Count of Jobs" ∧
    "Total Count of Jobs" ≠ "Date Extracted from File Name" ∧
    ((pipelineSheet [fileA] [] []).headD []).getD 4 "" = "Date Extracted from File Name" :=
  ⟨by decide, by decide, by decide⟩

/-- C8 (amended). Counting data rows one-indexed from the first data row,
the flat zebra fill lands on the odd positions (the first, third, ... data
rows, which sit on even sheet rows), not on the even positions; the fill is
applied after the alignment and border pass, and the filled cells keep
their centered alignment and border. -/
theorem C8_zebra_rows (maxRow p : Nat) (h1 : 1 ≤ p) (h2 : p + 1 ≤ maxRow) :
    ((finalCellFmt maxRow (p + 1)).fill = some grayHex ↔ p % 2 = 1) ∧
    (finalCellFmt maxRow (p + 1)).centered = true ∧
    (finalCellFmt maxRow (p + 1)).bordered = true := by
  have hne1 : ¬(p + 1 = 1) := by omega
  have hrange : 2 ≤ p + 1 ∧ p + 1 ≤ maxRow := ⟨by omega, h2⟩
  by_cases hpar : (p + 1) % 2 = 0
  · have hfill : finalCellFmt maxRow (p + 1) =
        { fill := some grayHex, bold := false, centered := true, bordered := true } := by
      unfold finalCellFmt afterDataFmt afterHeaderFmt
      rw [if_pos ⟨hrange.1, hrange.2, hpar⟩, if_pos hrange, if_neg hne1]
      rfl
    rw [hfill]
    exact ⟨⟨fun _ => by omega, fun _ => rfl⟩, rfl, rfl⟩
  · have hfill : finalCellFmt maxRow (p + 1) =
        { fill := none, bold := false, centered := true, bordered := true } := by
      unfold finalCellFmt afterDataFmt afterHeaderFmt
      rw [if_neg (fun hc => hpar hc.2.2), if_pos hrange, if_neg hne1]
      rfl
    rw [hfill]
    exact ⟨⟨fun hc => Option.noConfusion hc, fun hp1 => absurd hp1 (by omega)⟩, rfl, rfl⟩

/-- Witness for C8: with two data rows (sheet rows 2 and 3), the first data
row is filled and keeps its centered alignment. -/
theorem C8_zebra_rows_witness :
    (finalCellFmt 3 2).fill = some grayHex ∧ (finalCellFmt 3 2).centered = true := by
  have h := C8_zebra_rows 3 1 (by omega) (by omega)
  exact ⟨h.1.mpr (by omega), h.2.1⟩

/-- C8 is false as stated: with two data rows, data row 1 (sheet row 2,
an odd position from the first data row) receives the gray fill while data
row 2 (sheet row 3, an even position) does not, the opposite of the claimed
every-second-row pattern. -/
theorem C8_counterexample :
    (finalCellFmt 3 2).fill = some grayHex ∧ (finalCellFmt 3 3).fill = none ∧
    ¬(1 % 2 = 0) ∧ 2 % 2 = 0 := by
  refine ⟨by decide, by decide, by decide, by decide⟩

/-! Helper lemmas for the column width fold. -/

theorem maxLenFold_init_le (cells : List String) : ∀ a : Nat, a ≤ maxLenFold cells a := by
  induction cells with
  | nil => intro a; exact Nat.le_refl a
  | cons s rest ih =>
    intro a
    unfold maxLenFold at ih ⊢
    simp only [List.foldl_cons]
    by_cases h : s.length > a
    · rw [if_pos h]
      exact le_trans (le_of_lt h) (ih s.length)
    · rw [if_neg h]
      exact ih a

theorem le_maxLenFold (cells : List String) :
    ∀ a, ∀ s ∈ cells, s.length ≤ maxLenFold cells a := by
  induction cells with
  | nil => intro a s hs; cases hs
  | cons t rest ih =>
    intro a s hs
    unfold maxLenFold at ih ⊢
    simp only [List.foldl_cons]
    rcases List.mem_cons.mp hs with rfl | hs2
    · by_cases h : s.length > a
      · rw [if_pos h]
        exact maxLenFold_init_le rest s.length
      · rw [if_neg h]
        exact le_trans (Nat.le_of_not_lt h) (maxLenFold_init_le rest a)
    · by_cases h : t.length > a
      · rw [if_pos h]
        exact ih t.length s hs2
      · rw [if_neg h]
        exact ih a s hs2

theorem maxLenFold_attained (cells : List String) :
    ∀ a, maxLenFold cells a = a ∨ ∃ s ∈ cells, maxLenFold cells a = s.length := by
  induction cells with
  | nil => intro a; exact Or.inl rfl
  | cons t rest ih =>
    intro a
    unfold maxLenFold at ih ⊢
    simp only [List.foldl_cons]
    by_cases h : t.length > a
    · rw [if_pos h]
      rcases ih t.length with he | ⟨s, hs, he⟩
      · exact Or.inr ⟨t, List.mem_cons_self t rest, he⟩
      · exact Or.inr ⟨s, List.mem_cons_of_mem t hs, he⟩
    · rw [if_neg h]
      rcases ih a with he | ⟨s, hs, he⟩
      · exact Or.inl he
      · exact Or.inr ⟨s, List.mem_cons_of_mem t hs, he⟩

/-- C9. For every sheet column, the assigned width is the maximum character
length over the cells of that column, the header cell included, plus 2:
every cell fits with two characters to spare, and some cell attains the
bound exactly. -/
theorem C9_column_widths (header : List String) (rows : List (List String)) (c : Nat)
    (hc : c < header.length) :
    (∀ s ∈ columnCells header rows c,
        s.length + 2 ≤ (sheetWidths header rows).getD c 0) ∧
    (∃ s ∈ columnCells header rows c,
        (sheetWidths header rows).getD c 0 = s.length + 2) := by
  have hW : (sheetWidths header rows).getD c 0 = colWidthOf (columnCells header rows c) := by
    unfold sheetWidths
    rw [List.getD_eq_getElem?_getD, List.getElem?_map, List.getElem?_range hc]
    rfl
  rw [hW]
  unfold colWidthOf
  constructor
  · intro s hs
    have := le_maxLenFold (columnCells header rows c) 0 s hs
    omega
  · rcases maxLenFold_attained (columnCells header rows c) 0 with he | ⟨s, hs, he⟩
    · refine ⟨header.getD c "", List.mem_cons_self _ _, ?_⟩
      have hle := le_maxLenFold (columnCells header rows c) 0 (header.getD c "")
        (List.mem_cons_self _ _)
      omega
    · exact ⟨s, hs, by omega⟩

/-- Witness for C9 on a concrete one-row sheet: the first column is as wide
as its header plus 2, and every cell of the column fits. -/
theorem C9_column_widths_witness :
    "File Name".length + 2
      ≤ (sheetWidths ["File Name", "Vessel Name"] [["a.csv", "Alpha"]]).getD 0 0 :=
  (C9_column_widths ["File Name", "Vessel Name"] [["a.csv", "Alpha"]] 0 (by decide)).1
    "File Name" (by decide)
